import Mathlib

/-!
Verification of the trilogy database layer.

The definitions below are a shallow embedding of the repository's code:

* `Trilogy.JsVal` models JavaScript runtime values as far as the code
  inspects them (lodash `isPlainObject`, `Array.isArray`, `isFunction`,
  property access, `'key' in obj`).
* The `Trilogy` namespace embeds the bundled `Trilogy` class
  (`src/unnamed/part_000`): `_init`, `_write`, `run`, `exec`,
  `_errorHandler`, `_isValidWhere`, `count`'s aggregate handling and
  `decrement`'s generated update expression.  The sql.js engine is kept
  abstract as a record of state-transition functions (`Engine`); the
  adapter's observable state (`DBState`) holds the in-memory engine state,
  the backing file's byte content and a ghost counter of exports.
* The `Hooks` namespace embeds `src/src/hooks.ts`: the per-event listener
  sets (JS `Set` = insertion-ordered, de-duplicated list), the
  registration methods with their `invariant` guard (`src/src/util.ts`),
  the removal closures each registration returns, and `_callHook`'s
  firing loop with the `EventCancellation` sentinel.
-/

namespace Trilogy

/-- Model of a JavaScript value, as far as the code inspects values:
plain objects (lodash `isPlainObject`), arrays, functions (identified by
an id standing for reference identity), and primitives. -/
inductive JsVal where
  | num (n : Int)
  | str (s : String)
  | boolean (b : Bool)
  | nullVal
  | undefinedVal
  | obj (fields : List (String × JsVal))
  | arr (elems : List JsVal)
  | func (id : Nat)

/-- lodash `_.isPlainObject`. -/
def isPlainObject : JsVal → Bool
  | .obj _ => true
  | _ => false

/-- lodash `_.isFunction` / `typeof v === 'function'`. -/
def isFunctionVal : JsVal → Bool
  | .func _ => true
  | _ => false

/-- JS `Array.isArray`. -/
def isArrayVal : JsVal → Bool
  | .arr _ => true
  | _ => false

/-- Reference identity of a function value. -/
def funcId : JsVal → Nat
  | .func i => i
  | _ => 0

/-- JS `'k' in obj`. -/
def hasKey (v : JsVal) (k : String) : Bool :=
  match v with
  | .obj fields => (List.lookup k fields).isSome
  | _ => false

/-- JS property access `obj.k` (`undefined` when absent or not an object). -/
def getField (v : JsVal) (k : String) : JsVal :=
  match v with
  | .obj fields => (List.lookup k fields).getD .undefinedVal
  | _ => .undefinedVal

/-- `Trilogy._isValidWhere` (src/unnamed/part_000, lines 1621-1632):
plain objects are valid; arrays are valid iff their length is 2 or 3;
otherwise only functions are valid. -/
def isValidWhere (w : JsVal) : Bool :=
  if isPlainObject w then true
  else if isArrayVal w then
    (match w with
     | .arr elems => elems.length == 2 || elems.length == 3
     | _ => false)
  else isFunctionVal w

/-- `Trilogy#count` result handling (src/unnamed/part_000, lines 1406-1414):
`res = statement.getAsObject({})`; if `res` is a plain object with a
`count` property that property's value is resolved, otherwise `0`. -/
def countFromAggregate (res : JsVal) : JsVal :=
  if isPlainObject res && hasKey res "count" then getField res "count"
  else .num 0

/-- `Trilogy#decrement`'s generated raw SQL fragment
(src/unnamed/part_000, line 1202):
`args.allowNegative ? col + ' - ' + args.amount : 'MAX(0, ' + col + ' - ' + args.amount + ')'`. -/
def decrementRawStr (col : String) (amount : Int) (allowNegative : Bool) : String :=
  if allowNegative then col ++ " - " ++ toString amount
  else "MAX(0, " ++ col ++ " - " ++ toString amount ++ ")"

/-- Abstract syntax of the SQL expression `decrement` generates. -/
inductive SqlExpr where
  | colRef
  | lit (n : Int)
  | sub (a b : SqlExpr)
  | maxFn (a b : SqlExpr)

/-- Rendering of `SqlExpr` as SQL text, with `col` the column name. -/
def renderExpr (col : String) : SqlExpr → String
  | .colRef => col
  | .lit n => toString n
  | .sub a b => renderExpr col a ++ " - " ++ renderExpr col b
  | .maxFn a b => "MAX(" ++ renderExpr col a ++ ", " ++ renderExpr col b ++ ")"

/-- The expression `decrement` assigns to the column: `col - amount` when
`allowNegative`, `MAX(0, col - amount)` otherwise. -/
def decrementExpr (amount : Int) (allowNegative : Bool) : SqlExpr :=
  if allowNegative then .sub .colRef (.lit amount)
  else .maxFn (.lit 0) (.sub .colRef (.lit amount))

/-- SQLite integer semantics of `SqlExpr` with `v` the current column
value (`MAX` is the scalar two-argument maximum). -/
def evalExpr (v : Int) : SqlExpr → Int
  | .colRef => v
  | .lit n => n
  | .sub a b => evalExpr v a - evalExpr v b
  | .maxFn a b => max (evalExpr v a) (evalExpr v b)

/-- A JS `Error` object: `name` and `message`. -/
structure JsError where
  name : String
  message : String
deriving DecidableEq

/-- `constants.ERR_NO_DATABASE` (src/unnamed/part_000, line 26). -/
def ERR_NO_DATABASE : String := "Could not write - no database initialized."

/-- First argument of `Trilogy#_errorHandler`: either an `Error` object
or a string (method path). -/
inductive ErrArg where
  | jsErr (e : JsError)
  | strErr (s : String)

/-- `Trilogy#_errorHandler` (src/unnamed/part_000, lines 1547-1564):
an `Error` is kept (its `name` set to `TrilogyError`); a lone string `s`
becomes `Error('Trilogy :: ' + s)`; a string with a second `msg`
argument becomes `Error('Trilogy' + s + ' :: ' + msg)`.  The result is
returned as a rejected promise. -/
def errorHandler (arg : ErrArg) (msg : Option String) : JsError :=
  match arg with
  | .jsErr e => { e with name := "TrilogyError" }
  | .strErr s =>
    match msg with
    | none => { name := "TrilogyError", message := "Trilogy :: " ++ s }
    | some m => { name := "TrilogyError", message := "Trilogy" ++ s ++ " :: " ++ m }

/-- Abstract sql.js engine: statement execution (`Database#run`,
`Database#exec`), full-image export (`Database#export`), a fresh empty
database (`new SQL.Database()`) and loading from bytes
(`new SQL.Database(fileBuffer)`).  Engine states are abstract (`Nat`). -/
structure Engine where
  runStmt : Nat → String → Except JsError Nat
  execStmt : Nat → String → Except JsError (Nat × List Int)
  exportBytes : Nat → List Nat
  fresh : Nat
  load : List Nat → Nat

/-- Observable state of the embedded adapter: the in-memory engine state
(`this.db`, `none` before initialization), the backing file's content
(`none` when the file does not exist), and a ghost count of exports
performed (each `_write` call that reaches `jetpack.file`). -/
structure DBState where
  db : Option Nat
  fileBytes : Option (List Nat)
  writes : Nat
deriving DecidableEq

/-- `Trilogy#_write` (src/unnamed/part_000, lines 116-133): export the
engine's full current byte image and overwrite the backing file with it.
With no database nothing is written (`_errorHandler` path). -/
def write (E : Engine) (st : DBState) : DBState :=
  match st.db with
  | some s => { db := some s, fileBytes := some (E.exportBytes s), writes := st.writes + 1 }
  | none => st

/-- `Trilogy#run` (src/unnamed/part_000, lines 146-191): execute a
mutating statement; on success `_write` persists the post-statement
image and the promise resolves; on failure the promise rejects with the
engine's error and nothing is written. -/
def run (E : Engine) (st : DBState) (query : String) : Except JsError Unit × DBState :=
  match st.db with
  | none => (.error (errorHandler (.strErr ERR_NO_DATABASE) none), st)
  | some s =>
    match E.runStmt s query with
    | .ok s2 => (.ok (), write E { st with db := some s2 })
    | .error e => (.error e, st)

/-- `Trilogy#exec` (src/unnamed/part_000, lines 204-248): execute a
statement and resolve with its results; the backing file is never
touched. -/
def exec (E : Engine) (st : DBState) (query : String) : Except JsError (List Int) × DBState :=
  match st.db with
  | none => (.error (errorHandler (.strErr ERR_NO_DATABASE) none), st)
  | some s =>
    match E.execStmt s query with
    | .ok (s2, rows) => (.ok rows, { st with db := some s2 })
    | .error e => (.error e, st)

/-- `Trilogy#_init` (src/unnamed/part_000, lines 95-109): if the backing
file exists its bytes are loaded into a fresh engine instance; otherwise
a new empty engine is created and `_write` is called once. -/
def init (E : Engine) (disk : Option (List Nat)) : DBState :=
  match disk with
  | some bytes => { db := some (E.load bytes), fileBytes := some bytes, writes := 0 }
  | none => write E { db := some E.fresh, fileBytes := none, writes := 0 }

/-! ### Hook registry (`src/src/hooks.ts`) -/

/-- The `Hook` enum (src/src/hooks.ts, lines 41-49). -/
inductive Hook where
  | OnQuery
  | BeforeCreate
  | AfterCreate
  | BeforeUpdate
  | AfterUpdate
  | BeforeRemove
  | AfterRemove
deriving DecidableEq

/-- What one hook callback invocation returns: either the
`EventCancellation` sentinel (src/src/hooks.ts, line 51) or any other
value. -/
inductive HookReturn where
  | eventCancellation
  | value (n : Nat)
deriving DecidableEq

/-- The `HookResult` record returned by `_callHook`
(src/src/hooks.ts, lines 37-39). -/
structure HookResult where
  prevented : Bool
deriving DecidableEq

/-- State of a `Hooks` instance: one listener set per event
(src/src/hooks.ts, lines 54-62).  A JS `Set` of functions is an
insertion-ordered, de-duplicated collection; callbacks are identified by
reference identity, modelled as `Nat` ids. -/
structure Hooks where
  onQuery : List Nat
  onQueryAll : List Nat
  beforeCreate : List Nat
  afterCreate : List Nat
  beforeUpdate : List Nat
  afterUpdate : List Nat
  beforeRemove : List Nat
  afterRemove : List Nat
deriving DecidableEq

/-- A freshly constructed `Hooks` instance: all listener sets empty. -/
def emptyHooks : Hooks := ⟨[], [], [], [], [], [], [], []⟩

/-- JS `Set.prototype.add`: appends a new element, leaves the set
unchanged when the element is already present. -/
def setAdd (l : List Nat) (x : Nat) : List Nat :=
  if x ∈ l then l else l ++ [x]

/-- JS `Set.prototype.delete`: removes the element if present. -/
def setDelete (l : List Nat) (x : Nat) : List Nat :=
  l.filter (fun y => y != x)

/-- `invariant` (src/src/util.ts, lines 58-64): throws a `TrilogyError`
with the given message when the condition is falsy. -/
def invariantChk (cond : Bool) (msg : String) : Except JsError Unit :=
  if cond then .ok () else .error { name := "TrilogyError", message := msg }

/-- The error every registration method throws on a non-function
callback. -/
def hookCbErr : JsError :=
  { name := "TrilogyError", message := "hook callbacks must be of type function" }

/-- `Hooks#onQuery` (src/src/hooks.ts, lines 64-79): after the
`invariant` check, with `includeInternal` the callback is added to both
`_onQuery` and `_onQueryAll`, otherwise only to `_onQuery`.  Returns the
new state together with the id the returned removal closure captures. -/
def Hooks.onQueryAdd (h : Hooks) (fn : JsVal) (includeInternal : Bool) :
    Except JsError (Hooks × Nat) :=
  match invariantChk (isFunctionVal fn) "hook callbacks must be of type function" with
  | .error e => .error e
  | .ok _ =>
    if includeInternal then
      .ok ({ h with
              onQuery := setAdd h.onQuery (funcId fn),
              onQueryAll := setAdd h.onQueryAll (funcId fn) }, funcId fn)
    else
      .ok ({ h with onQuery := setAdd h.onQuery (funcId fn) }, funcId fn)

/-- `Hooks#beforeCreate` (src/src/hooks.ts, lines 81-89). -/
def Hooks.beforeCreateAdd (h : Hooks) (fn : JsVal) : Except JsError (Hooks × Nat) :=
  match invariantChk (isFunctionVal fn) "hook callbacks must be of type function" with
  | .error e => .error e
  | .ok _ => .ok ({ h with beforeCreate := setAdd h.beforeCreate (funcId fn) }, funcId fn)

/-- `Hooks#afterCreate` (src/src/hooks.ts, lines 91-99). -/
def Hooks.afterCreateAdd (h : Hooks) (fn : JsVal) : Except JsError (Hooks × Nat) :=
  match invariantChk (isFunctionVal fn) "hook callbacks must be of type function" with
  | .error e => .error e
  | .ok _ => .ok ({ h with afterCreate := setAdd h.afterCreate (funcId fn) }, funcId fn)

/-- `Hooks#beforeUpdate` (src/src/hooks.ts, lines 101-109). -/
def Hooks.beforeUpdateAdd (h : Hooks) (fn : JsVal) : Except JsError (Hooks × Nat) :=
  match invariantChk (isFunctionVal fn) "hook callbacks must be of type function" with
  | .error e => .error e
  | .ok _ => .ok ({ h with beforeUpdate := setAdd h.beforeUpdate (funcId fn) }, funcId fn)

/-- `Hooks#afterUpdate` (src/src/hooks.ts, lines 111-119). -/
def Hooks.afterUpdateAdd (h : Hooks) (fn : JsVal) : Except JsError (Hooks × Nat) :=
  match invariantChk (isFunctionVal fn) "hook callbacks must be of type function" with
  | .error e => .error e
  | .ok _ => .ok ({ h with afterUpdate := setAdd h.afterUpdate (funcId fn) }, funcId fn)

/-- `Hooks#beforeRemove` (src/src/hooks.ts, lines 121-129). -/
def Hooks.beforeRemoveAdd (h : Hooks) (fn : JsVal) : Except JsError (Hooks × Nat) :=
  match invariantChk (isFunctionVal fn) "hook callbacks must be of type function" with
  | .error e => .error e
  | .ok _ => .ok ({ h with beforeRemove := setAdd h.beforeRemove (funcId fn) }, funcId fn)

/-- `Hooks#afterRemove` (src/src/hooks.ts, lines 131-139). -/
def Hooks.afterRemoveAdd (h : Hooks) (fn : JsVal) : Except JsError (Hooks × Nat) :=
  match invariantChk (isFunctionVal fn) "hook callbacks must be of type function" with
  | .error e => .error e
  | .ok _ => .ok ({ h with afterRemove := setAdd h.afterRemove (funcId fn) }, funcId fn)

/-- The removal closure returned by `onQuery` without `includeInternal`:
`() => this._onQuery.delete(fn)`. -/
def Hooks.removeOnQuery (h : Hooks) (x : Nat) : Hooks :=
  { h with onQuery := setDelete h.onQuery x }

/-- The removal closure returned by `onQuery` with `includeInternal`:
`() => this._onQueryAll.delete(fn) && this._onQuery.delete(fn)` — JS
`&&` short-circuits, so `_onQuery.delete` runs only when the callback
was still in `_onQueryAll`. -/
def Hooks.removeOnQueryBoth (h : Hooks) (x : Nat) : Hooks :=
  if x ∈ h.onQueryAll then
    { h with onQueryAll := setDelete h.onQueryAll x, onQuery := setDelete h.onQuery x }
  else
    { h with onQueryAll := setDelete h.onQueryAll x }

/-- The removal closure returned by `beforeCreate`. -/
def Hooks.removeBeforeCreate (h : Hooks) (x : Nat) : Hooks :=
  { h with beforeCreate := setDelete h.beforeCreate x }

/-- The removal closure returned by `afterCreate`. -/
def Hooks.removeAfterCreate (h : Hooks) (x : Nat) : Hooks :=
  { h with afterCreate := setDelete h.afterCreate x }

/-- The removal closure returned by `beforeUpdate`. -/
def Hooks.removeBeforeUpdate (h : Hooks) (x : Nat) : Hooks :=
  { h with beforeUpdate := setDelete h.beforeUpdate x }

/-- The removal closure returned by `afterUpdate`. -/
def Hooks.removeAfterUpdate (h : Hooks) (x : Nat) : Hooks :=
  { h with afterUpdate := setDelete h.afterUpdate x }

/-- The removal closure returned by `beforeRemove`. -/
def Hooks.removeBeforeRemove (h : Hooks) (x : Nat) : Hooks :=
  { h with beforeRemove := setDelete h.beforeRemove x }

/-- The removal closure returned by `afterRemove`. -/
def Hooks.removeAfterRemove (h : Hooks) (x : Nat) : Hooks :=
  { h with afterRemove := setDelete h.afterRemove x }

/-- The listener set `_callHook` iterates for an event
(src/src/hooks.ts, lines 172-192): for `OnQuery` the `internal` flag
selects `_onQueryAll` (internal query) or `_onQuery` (external query);
the other events map to their own set. -/
def Hooks.hookList (h : Hooks) (e : Hook) (internal : Bool) : List Nat :=
  match e with
  | .OnQuery => if internal then h.onQueryAll else h.onQuery
  | .BeforeCreate => h.beforeCreate
  | .AfterCreate => h.afterCreate
  | .BeforeUpdate => h.beforeUpdate
  | .AfterUpdate => h.afterUpdate
  | .BeforeRemove => h.beforeRemove
  | .AfterRemove => h.afterRemove

/-- The firing loop of `_callHook` (src/src/hooks.ts, lines 176-180 and
194-219): each callback is invoked in turn and awaited; a result equal
to `EventCancellation` sets `result.prevented` to `true`; the loop
always continues to the end.  `env` gives each callback's awaited return
value for this firing; the returned list is the invocation trace in
order. -/
def callHookList (env : Nat → HookReturn) :
    List Nat → Bool → List (Nat × HookReturn) × Bool
  | [], prevented => ([], prevented)
  | f :: rest, prevented =>
    let r := env f
    let p2 := if r = HookReturn.eventCancellation then true else prevented
    let out := callHookList env rest p2
    ((f, r) :: out.1, out.2)

/-- `Hooks#_callHook` (src/src/hooks.ts, lines 163-222): pick the
event's listener set and run the firing loop starting from
`prevented = false`.  Returns the invocation trace and the
`HookResult`. -/
def Hooks.callHook (h : Hooks) (e : Hook) (internal : Bool) (env : Nat → HookReturn) :
    List (Nat × HookReturn) × HookResult :=
  let out := callHookList env (h.hookList e internal) false
  (out.1, ⟨out.2⟩)

/-- The first-occurrence subsequence of a list: what a JS `Set` holds
after inserting the list's elements in order. -/
def firstOcc : List Nat → List Nat
  | [] => []
  | x :: xs => x :: (firstOcc xs).filter (fun y => y != x)

/-- Registering a sequence of callbacks through `beforeCreate` in order
(every registration succeeds since the arguments are functions). -/
def registerBeforeCreateMany (h : Hooks) (fns : List Nat) : Hooks :=
  fns.foldl
    (fun acc f =>
      match acc.beforeCreateAdd (.func f) with
      | .ok (h2, _) => h2
      | .error _ => acc)
    h

/-- Modelled from the spec: the operations guard their `where` argument
with `_isValidWhere` through the external `arify` validator ("anything
else is a validation failure reported to the caller before any I/O
occurs", failing "with `InvalidCriteriaKind`"); when validation fails
the handler that would build and execute a statement never runs and the
adapter state is untouched. -/
def whereGuard {α : Type} (w : JsVal) (handler : DBState → α × DBState) (st : DBState) :
    Except String α × DBState :=
  if isValidWhere w then
    let out := handler st
    (.ok out.1, out.2)
  else (.error "InvalidCriteriaKind", st)

/-- Whether `small` is a contiguous character run of `big`, starting at
the head. -/
def startsWithChars : List Char → List Char → Bool
  | _, [] => true
  | [], _ :: _ => false
  | b :: bs, s :: ss => (b == s) && startsWithChars bs ss

/-- Whether `small` occurs contiguously anywhere in `big`. -/
def containsChars : List Char → List Char → Bool
  | [], small => small.isEmpty
  | b :: bs, small => startsWithChars (b :: bs) small || containsChars bs small

/-- Substring test on strings. -/
def strContainsStr (big small : String) : Bool :=
  containsChars big.data small.data

/-- Modelled from the spec: an error "tagged with the statement text for
diagnostics" — the surfaced error carries the failed statement's text in
its message. -/
def taggedWithStatementText (e : JsError) (stmt : String) : Bool :=
  strContainsStr e.message stmt

/-- A concrete engine used to evaluate the theorems below on explicit
inputs: `"INSERT"` succeeds and bumps the state, anything else fails
with `Error: boom`; the exported image of state `s` is `[s]`. -/
def sampleEngine : Engine where
  runStmt := fun s q => if q = "INSERT" then .ok (s + 1) else .error ⟨"Error", "boom"⟩
  execStmt := fun s _ => .ok (s, [])
  exportBytes := fun s => [s]
  fresh := 0
  load := fun b => b.length

/-- A concrete adapter state: engine state 5, file holding `[9]`, three
exports performed so far. -/
def sampleState : DBState := ⟨some 5, some [9], 3⟩

/-! ### Helper lemmas -/

theorem mem_setAdd {l : List Nat} {x y : Nat} : y ∈ setAdd l x ↔ y = x ∨ y ∈ l := by
  unfold setAdd
  split
  · constructor
    · exact fun h => Or.inr h
    · rintro (rfl | h)
      · assumption
      · assumption
  · simp [List.mem_append, or_comm]

theorem setAdd_self_mem (l : List Nat) (x : Nat) : x ∈ setAdd l x :=
  mem_setAdd.mpr (Or.inl rfl)

theorem setAdd_nodup {l : List Nat} (h : l.Nodup) (x : Nat) : (setAdd l x).Nodup := by
  unfold setAdd
  split
  · exact h
  · next hx => simpa using List.Nodup.append h (List.nodup_singleton x) (by simpa using hx)

theorem mem_setDelete {l : List Nat} {x y : Nat} :
    y ∈ setDelete l x ↔ y ∈ l ∧ y ≠ x := by
  unfold setDelete
  simp [List.mem_filter]

theorem setDelete_not_mem (l : List Nat) (x : Nat) : x ∉ setDelete l x := by
  intro h
  exact (mem_setDelete.mp h).2 rfl

theorem setDelete_of_not_mem {l : List Nat} {x : Nat} (h : x ∉ l) : setDelete l x = l := by
  unfold setDelete
  refine List.filter_eq_self.mpr fun a ha => ?_
  simp only [bne_iff_ne, ne_eq, decide_eq_true_eq]
  rintro rfl
  exact h ha

theorem setDelete_idem (l : List Nat) (x : Nat) :
    setDelete (setDelete l x) x = setDelete l x :=
  setDelete_of_not_mem (setDelete_not_mem l x)

theorem callHookList_spec (env : Nat → HookReturn) (l : List Nat) (p : Bool) :
    callHookList env l p =
      (l.map (fun f => (f, env f)),
       p || l.any (fun f => decide (env f = HookReturn.eventCancellation))) := by
  induction l generalizing p with
  | nil => simp [callHookList]
  | cons f rest ih =>
    simp only [callHookList, ih, List.map_cons, List.any_cons]
    by_cases hc : env f = HookReturn.eventCancellation
    · simp [hc]
    · simp [hc]

theorem foldl_setAdd (regs : List Nat) :
    ∀ acc : List Nat,
      regs.foldl setAdd acc = acc ++ (firstOcc regs).filter (fun y => decide (y ∉ acc)) := by
  induction regs with
  | nil => intro acc; simp [firstOcc]
  | cons x xs ih =>
    intro acc
    rw [List.foldl_cons, ih (setAdd acc x)]
    by_cases hx : x ∈ acc
    · have hacc : setAdd acc x = acc := by simp [setAdd, hx]
      rw [hacc]
      simp only [firstOcc, List.filter_cons, List.filter_filter]
      have hxd : decide (x ∉ acc) = false := by simp [hx]
      rw [hxd]
      simp only [if_neg (by simp : ¬ false = true)]
      refine congrArg (acc ++ ·) (List.filter_congr fun y _ => ?_)
      by_cases hy : y ∈ acc
      · simp [hy]
      · have : y ≠ x := by rintro rfl; exact hy hx
        simp [hy, this]
    · have hacc : setAdd acc x = acc ++ [x] := by simp [setAdd, hx]
      rw [hacc]
      simp only [firstOcc, List.filter_cons, List.filter_filter]
      have hxd : decide (x ∉ acc) = true := by simpa using hx
      rw [hxd]
      simp only [if_pos rfl, List.append_assoc, List.singleton_append]
      refine congrArg (acc ++ ·) (congrArg (x :: ·) (List.filter_congr fun y _ => ?_))
      by_cases hyx : y = x
      · subst hyx
        simp [List.mem_append]
      · by_cases hy : y ∈ acc
        · simp [List.mem_append, hy, hyx]
        · simp [List.mem_append, hy, hyx]

theorem foldl_setAdd_nil (regs : List Nat) : regs.foldl setAdd [] = firstOcc regs := by
  rw [foldl_setAdd regs []]
  simp

theorem registerBeforeCreateMany_spec (regs : List Nat) :
    ∀ h : Hooks,
      (registerBeforeCreateMany h regs).beforeCreate = regs.foldl setAdd h.beforeCreate := by
  induction regs with
  | nil => intro h; rfl
  | cons f rest ih =>
    intro h
    have hstep : registerBeforeCreateMany h (f :: rest)
        = registerBeforeCreateMany { h with beforeCreate := setAdd h.beforeCreate f } rest := rfl
    rw [hstep, ih]
    rfl

theorem callHook_trace_fst (h : Hooks) (e : Hook) (internal : Bool) (env : Nat → HookReturn) :
    (h.callHook e internal env).1.map Prod.fst = h.hookList e internal := by
  simp only [Hooks.callHook, callHookList_spec, List.map_map]
  exact List.map_id _

theorem firstOcc_nodup (regs : List Nat) : (firstOcc regs).Nodup := by
  induction regs with
  | nil => simp [firstOcc]
  | cons x xs ih =>
    simp only [firstOcc, List.nodup_cons]
    constructor
    · intro hx
      have := (List.mem_filter.mp hx).2
      simp at this
    · exact List.Nodup.filter _ ih

/-! ### Claim theorems -/

/-- Claim C2: after any statement executed through `run` succeeds, the
engine's full current byte image is exported and the backing file is
overwritten with it; statements executed through `exec` never trigger an
export, leaving the backing file unchanged. -/
theorem run_persists_exec_does_not :
    (∀ (E : Engine) (st : DBState) (q : String) (s s2 : Nat),
        st.db = some s → E.runStmt s q = .ok s2 →
        run E st q =
          (.ok (),
           { db := some s2, fileBytes := some (E.exportBytes s2), writes := st.writes + 1 }))
    ∧ (∀ (E : Engine) (st : DBState) (q : String),
        (exec E st q).2.fileBytes = st.fileBytes ∧ (exec E st q).2.writes = st.writes) := by
  constructor
  · intro E st q s s2 hdb hrun
    simp [run, hdb, hrun, write]
  · intro E st q
    unfold exec
    cases hdb : st.db with
    | none => simp
    | some s =>
      cases hex : E.execStmt s q with
      | ok pr =>
        cases pr with
        | mk s2 rows => simp [hex]
      | error e => simp [hex]

/-- Witness for C2 at a concrete engine and state. -/
theorem run_persists_exec_does_not_witness :
    run sampleEngine sampleState "INSERT" =
      (.ok (), { db := some 6, fileBytes := some [6], writes := 4 })
    ∧ (exec sampleEngine sampleState "SELECT").2.fileBytes = some [9]
    ∧ (exec sampleEngine sampleState "SELECT").2.writes = 3 :=
  ⟨run_persists_exec_does_not.1 sampleEngine sampleState "INSERT" 5 6 rfl rfl,
   (run_persists_exec_does_not.2 sampleEngine sampleState "SELECT").1,
   (run_persists_exec_does_not.2 sampleEngine sampleState "SELECT").2⟩

/-- Claim C3 (counterexample to the tagging part): at a concrete failing
statement, `run` rejects with exactly the engine's error, and that error
is not tagged with the statement text. -/
theorem run_failure_untagged_counterexample :
    run sampleEngine sampleState "BAD" = (.error ⟨"Error", "boom"⟩, sampleState)
    ∧ taggedWithStatementText ⟨"Error", "boom"⟩ "BAD" = false := by
  constructor
  · rfl
  · rfl

/-- Claim C3 (amended): if statement execution fails, no export occurs —
the adapter state, including the backing file, is exactly what it was —
and the engine's error is surfaced unchanged as the rejection; the
`_errorHandler` that higher-level operations then pass it through keeps
its message unchanged (only renaming it `TrilogyError`). -/
theorem run_failure_leaves_file :
    ∀ (E : Engine) (st : DBState) (q : String) (s : Nat) (e : JsError),
      st.db = some s → E.runStmt s q = .error e →
      run E st q = (.error e, st)
      ∧ (errorHandler (.jsErr e) none).message = e.message
      ∧ (errorHandler (.jsErr e) none).name = "TrilogyError" := by
  intro E st q s e hdb hrun
  refine ⟨?_, rfl, rfl⟩
  simp [run, hdb, hrun]

/-- Witness for C3's amended theorem at a concrete failing statement. -/
theorem run_failure_leaves_file_witness :
    run sampleEngine sampleState "DROP" = (.error ⟨"Error", "boom"⟩, sampleState)
    ∧ (errorHandler (.jsErr ⟨"Error", "boom"⟩) none).message = "boom"
    ∧ (errorHandler (.jsErr ⟨"Error", "boom"⟩) none).name = "TrilogyError" :=
  run_failure_leaves_file sampleEngine sampleState "DROP" 5 ⟨"Error", "boom"⟩ rfl rfl

/-- Claim C4: with `allowNegative` unset, `decrement` sets the column to
`MAX(0, column - amount)` (never below 0); with `allowNegative` set it
sets `column - amount` with no lower bound.  The generated SQL text
matches the expression in both cases. -/
theorem decrement_clamps_at_zero :
    ∀ (col : String) (amount v : Int),
      decrementRawStr col amount false = renderExpr col (decrementExpr amount false)
      ∧ decrementRawStr col amount true = renderExpr col (decrementExpr amount true)
      ∧ evalExpr v (decrementExpr amount false) = max 0 (v - amount)
      ∧ 0 ≤ evalExpr v (decrementExpr amount false)
      ∧ evalExpr v (decrementExpr amount true) = v - amount := by
  intro col amount v
  refine ⟨rfl, rfl, rfl, ?_, rfl⟩
  exact le_max_left 0 (v - amount)

/-- Claim C5: `_isValidWhere` accepts exactly a plain object mapping, an
array of length 2, an array of length 3, or a function; any other input
fails validation and the guarded operation reports the failure without
the handler (and hence any statement) running. -/
theorem where_validation_shapes :
    (∀ w : JsVal, isValidWhere w = true ↔
      ((∃ fields, w = JsVal.obj fields)
        ∨ (∃ a b, w = JsVal.arr [a, b])
        ∨ (∃ a b c, w = JsVal.arr [a, b, c])
        ∨ (∃ i, w = JsVal.func i)))
    ∧ (∀ (α : Type) (w : JsVal) (handler : DBState → α × DBState) (st : DBState),
        isValidWhere w = false →
        whereGuard w handler st = (.error "InvalidCriteriaKind", st)) := by
  constructor
  · intro w
    cases w with
    | num n => simp [isValidWhere, isPlainObject, isArrayVal, isFunctionVal]
    | str s => simp [isValidWhere, isPlainObject, isArrayVal, isFunctionVal]
    | boolean b => simp [isValidWhere, isPlainObject, isArrayVal, isFunctionVal]
    | nullVal => simp [isValidWhere, isPlainObject, isArrayVal, isFunctionVal]
    | undefinedVal => simp [isValidWhere, isPlainObject, isArrayVal, isFunctionVal]
    | obj fields => simp [isValidWhere, isPlainObject]
    | func i => simp [isValidWhere, isPlainObject, isArrayVal, isFunctionVal]
    | arr elems =>
      simp only [isValidWhere, isPlainObject, isArrayVal, Bool.false_eq_true, if_false,
        if_true, Bool.or_eq_true, beq_iff_eq]
      constructor
      · rintro (h2 | h3)
        · obtain ⟨a, b, rfl⟩ := List.length_eq_two.mp h2
          exact Or.inr (Or.inl ⟨a, b, rfl⟩)
        · obtain ⟨a, b, c, rfl⟩ := List.length_eq_three.mp h3
          exact Or.inr (Or.inr (Or.inl ⟨a, b, c, rfl⟩))
      · rintro (⟨fields, hf⟩ | ⟨a, b, hab⟩ | ⟨a, b, c, habc⟩ | ⟨i, hi⟩)
        · exact absurd hf (by simp)
        · cases hab; exact Or.inl rfl
        · cases habc; exact Or.inr rfl
        · exact absurd hi (by simp)
  · intro α w handler st hw
    simp [whereGuard, hw]

/-- Witness for C5: a number fails validation and the guard reports the
failure with the state untouched; an empty mapping passes. -/
theorem where_validation_shapes_witness :
    whereGuard (JsVal.num 5) (fun st => ((0 : Nat), st)) sampleState
      = (.error "InvalidCriteriaKind", sampleState)
    ∧ isValidWhere (JsVal.obj []) = true :=
  ⟨where_validation_shapes.2 Nat (JsVal.num 5) (fun st => ((0 : Nat), st)) sampleState rfl,
   (where_validation_shapes.1 (JsVal.obj [])).mpr (Or.inl ⟨[], rfl⟩)⟩

/-- Claim C7: `count` resolves to the `count` field of the aggregate row
when that row is a plain object containing one, and to `0` otherwise. -/
theorem count_defaults_to_zero :
    (∀ (fields : List (String × JsVal)) (v : JsVal),
        List.lookup "count" fields = some v →
        countFromAggregate (JsVal.obj fields) = v)
    ∧ (∀ res : JsVal, hasKey res "count" = false →
        countFromAggregate res = JsVal.num 0) := by
  constructor
  · intro fields v hv
    simp [countFromAggregate, isPlainObject, hasKey, getField, hv]
  · intro res hres
    unfold countFromAggregate
    rw [hres]
    simp

/-- Witness for C7: a concrete aggregate row with a `count` field and a
concrete non-object result. -/
theorem count_defaults_to_zero_witness :
    countFromAggregate (JsVal.obj [("count", JsVal.num 3)]) = JsVal.num 3
    ∧ countFromAggregate (JsVal.arr []) = JsVal.num 0 :=
  ⟨count_defaults_to_zero.1 [("count", JsVal.num 3)] (JsVal.num 3) rfl,
   count_defaults_to_zero.2 (JsVal.arr []) rfl⟩

/-- Claim C8: opening the database with an existing backing file loads
its bytes into a fresh engine instance; with no backing file a new empty
engine is created and exported exactly once, so the file exists (holding
the empty engine's image) after initialization. -/
theorem init_bootstrap :
    ∀ (E : Engine) (b : List Nat),
      init E (some b) = { db := some (E.load b), fileBytes := some b, writes := 0 }
      ∧ init E none =
          { db := some E.fresh, fileBytes := some (E.exportBytes E.fresh), writes := 1 } := by
  intro E b
  exact ⟨rfl, rfl⟩

/-- Claim C1: for every lifecycle event, firing invokes every registered
callback exactly once in registration order (the JS `Set` collapses
duplicate registrations into the first occurrence), sequentially; the
invocation trace never depends on the callbacks' results, so a
cancellation never suppresses later callbacks; and `prevented` is true
iff some invoked callback returned the `EventCancellation` sentinel. -/
theorem hooks_firing_complete_ordered :
    (∀ (h : Hooks) (e : Hook) (internal : Bool) (env : Nat → HookReturn),
        (h.callHook e internal env).1 = (h.hookList e internal).map (fun f => (f, env f))
        ∧ ((h.callHook e internal env).2.prevented = true ↔
            ∃ f ∈ h.hookList e internal, env f = HookReturn.eventCancellation))
    ∧ (∀ regs : List Nat,
        (registerBeforeCreateMany emptyHooks regs).beforeCreate = firstOcc regs
        ∧ (firstOcc regs).Nodup) := by
  constructor
  · intro h e internal env
    constructor
    · simp [Hooks.callHook, callHookList_spec]
    · simp [Hooks.callHook, callHookList_spec, List.any_eq_true]
  · intro regs
    refine ⟨?_, firstOcc_nodup regs⟩
    rw [registerBeforeCreateMany_spec regs emptyHooks]
    exact foldl_setAdd_nil regs

/-- Witness for C1: registering callbacks `7, 4, 7` yields the listener
list `[7, 4]`; firing with callback `4` returning the sentinel gives
trace `[7, 4]` (callback `7` still invoked, callback `4` still recorded)
and `prevented = true`. -/
theorem hooks_firing_complete_ordered_witness :
    (registerBeforeCreateMany emptyHooks [7, 4, 7]).beforeCreate = [7, 4]
    ∧ ((registerBeforeCreateMany emptyHooks [7, 4, 7]).callHook .BeforeCreate false
        (fun f => if f = 4 then HookReturn.eventCancellation else HookReturn.value 0)
       ).2.prevented = true :=
  ⟨(hooks_firing_complete_ordered.2 [7, 4, 7]).1,
   ((hooks_firing_complete_ordered.1 (registerBeforeCreateMany emptyHooks [7, 4, 7])
      .BeforeCreate false
      (fun f => if f = 4 then HookReturn.eventCancellation else HookReturn.value 0)).2).mpr
     ⟨4, by decide, by decide⟩⟩

/-- Claim C6: an on-query observer registered without `includeInternal`
is invoked only for external queries (`internal = false`); one
registered with `includeInternal: true` is invoked for both internal and
external queries. -/
theorem onquery_internal_optin :
    ∀ (h h1 h2 : Hooks) (fn : Nat) (env : Nat → HookReturn),
      (h.onQueryAdd (.func fn) false = .ok (h1, fn) →
        fn ∈ (h1.callHook .OnQuery false env).1.map Prod.fst
        ∧ (fn ∉ h.onQueryAll → fn ∉ (h1.callHook .OnQuery true env).1.map Prod.fst))
      ∧ (h.onQueryAdd (.func fn) true = .ok (h2, fn) →
        fn ∈ (h2.callHook .OnQuery false env).1.map Prod.fst
        ∧ fn ∈ (h2.callHook .OnQuery true env).1.map Prod.fst) := by
  intro h h1 h2 fn env
  constructor
  · intro hreg
    have hh1 : ({ h with onQuery := setAdd h.onQuery fn } : Hooks) = h1 := by
      have := hreg
      simp only [Hooks.onQueryAdd, invariantChk, isFunctionVal, funcId, if_true,
        if_false, Bool.false_eq_true] at this
      exact (Prod.mk.injEq _ _ _ _).mp (Except.ok.inj this) |>.1
    constructor
    · rw [callHook_trace_fst, ← hh1]
      exact setAdd_self_mem h.onQuery fn
    · intro hnot
      rw [callHook_trace_fst, ← hh1]
      exact hnot
  · intro hreg
    have hh2 : ({ h with onQuery := setAdd h.onQuery fn, onQueryAll := setAdd h.onQueryAll fn } : Hooks) = h2 := by
      have := hreg
      simp only [Hooks.onQueryAdd, invariantChk, isFunctionVal, funcId, if_true,
        if_false, Bool.false_eq_true] at this
      exact (Prod.mk.injEq _ _ _ _).mp (Except.ok.inj this) |>.1
    constructor
    · rw [callHook_trace_fst, ← hh2]
      exact setAdd_self_mem h.onQuery fn
    · rw [callHook_trace_fst, ← hh2]
      exact setAdd_self_mem h.onQueryAll fn

/-- Witness for C6 at a concrete registry: callback `0` registered
without `includeInternal` observes external but not internal firings;
callback `1` registered with `includeInternal` observes both. -/
theorem onquery_internal_optin_witness :
    (0 ∈ (({ emptyHooks with onQuery := [0] } : Hooks).callHook .OnQuery false
        (fun _ => HookReturn.value 0)).1.map Prod.fst
      ∧ 0 ∉ (({ emptyHooks with onQuery := [0] } : Hooks).callHook .OnQuery true
        (fun _ => HookReturn.value 0)).1.map Prod.fst)
    ∧ (1 ∈ (({ emptyHooks with onQuery := [1], onQueryAll := [1] } : Hooks).callHook
        .OnQuery false (fun _ => HookReturn.value 0)).1.map Prod.fst
      ∧ 1 ∈ (({ emptyHooks with onQuery := [1], onQueryAll := [1] } : Hooks).callHook
        .OnQuery true (fun _ => HookReturn.value 0)).1.map Prod.fst) :=
  ⟨(onquery_internal_optin emptyHooks { emptyHooks with onQuery := [0] } emptyHooks 0
      (fun _ => HookReturn.value 0)).1 rfl
    |>.imp id (fun g => g (by simp [emptyHooks])),
   (onquery_internal_optin emptyHooks emptyHooks
      { emptyHooks with onQuery := [1], onQueryAll := [1] } 1
      (fun _ => HookReturn.value 0)).2 rfl⟩

/-- Claim C9: every removal capability unregisters exactly its own
callback (others, of any id, stay registered) and is idempotent — a
second invocation changes nothing and cannot throw (all removal
closures are total).  The capability returned by an
`includeInternal: true` registration removes the callback from both the
default (`_onQuery`) and internal (`_onQueryAll`) observer sets. -/
theorem removal_idempotent_exact :
    ∀ (h h2 : Hooks) (x : Nat),
      ((h.removeOnQuery x).removeOnQuery x = h.removeOnQuery x
        ∧ (h.removeOnQueryBoth x).removeOnQueryBoth x = h.removeOnQueryBoth x
        ∧ (h.removeBeforeCreate x).removeBeforeCreate x = h.removeBeforeCreate x
        ∧ (h.removeAfterCreate x).removeAfterCreate x = h.removeAfterCreate x
        ∧ (h.removeBeforeUpdate x).removeBeforeUpdate x = h.removeBeforeUpdate x
        ∧ (h.removeAfterUpdate x).removeAfterUpdate x = h.removeAfterUpdate x
        ∧ (h.removeBeforeRemove x).removeBeforeRemove x = h.removeBeforeRemove x
        ∧ (h.removeAfterRemove x).removeAfterRemove x = h.removeAfterRemove x)
      ∧ (x ∉ (h.removeOnQuery x).onQuery
        ∧ x ∉ (h.removeBeforeCreate x).beforeCreate
        ∧ x ∉ (h.removeAfterCreate x).afterCreate
        ∧ x ∉ (h.removeBeforeUpdate x).beforeUpdate
        ∧ x ∉ (h.removeAfterUpdate x).afterUpdate
        ∧ x ∉ (h.removeBeforeRemove x).beforeRemove
        ∧ x ∉ (h.removeAfterRemove x).afterRemove)
      ∧ (∀ y, y ≠ x →
          ((y ∈ (h.removeOnQuery x).onQuery ↔ y ∈ h.onQuery)
            ∧ (y ∈ (h.removeOnQueryBoth x).onQuery ↔ y ∈ h.onQuery)
            ∧ (y ∈ (h.removeOnQueryBoth x).onQueryAll ↔ y ∈ h.onQueryAll)
            ∧ (y ∈ (h.removeBeforeCreate x).beforeCreate ↔ y ∈ h.beforeCreate)
            ∧ (y ∈ (h.removeAfterCreate x).afterCreate ↔ y ∈ h.afterCreate)
            ∧ (y ∈ (h.removeBeforeUpdate x).beforeUpdate ↔ y ∈ h.beforeUpdate)
            ∧ (y ∈ (h.removeAfterUpdate x).afterUpdate ↔ y ∈ h.afterUpdate)
            ∧ (y ∈ (h.removeBeforeRemove x).beforeRemove ↔ y ∈ h.beforeRemove)
            ∧ (y ∈ (h.removeAfterRemove x).afterRemove ↔ y ∈ h.afterRemove)))
      ∧ (h.onQueryAdd (.func x) true = .ok (h2, x) →
          x ∈ h2.onQuery ∧ x ∈ h2.onQueryAll
          ∧ x ∉ (h2.removeOnQueryBoth x).onQuery
          ∧ x ∉ (h2.removeOnQueryBoth x).onQueryAll) := by
  intro h h2 x
  refine ⟨⟨?_, ?_, ?_, ?_, ?_, ?_, ?_, ?_⟩, ?_, ?_, ?_⟩
  · simp [Hooks.removeOnQuery, setDelete_idem]
  · unfold Hooks.removeOnQueryBoth
    by_cases hx : x ∈ h.onQueryAll
    · simp only [if_pos hx]
      rw [if_neg (setDelete_not_mem h.onQueryAll x)]
      simp [setDelete_idem]
    · simp only [if_neg hx]
      rw [if_neg (fun hc => hx (mem_setDelete.mp hc).1)]
      simp [setDelete_idem]
  · simp [Hooks.removeBeforeCreate, setDelete_idem]
  · simp [Hooks.removeAfterCreate, setDelete_idem]
  · simp [Hooks.removeBeforeUpdate, setDelete_idem]
  · simp [Hooks.removeAfterUpdate, setDelete_idem]
  · simp [Hooks.removeBeforeRemove, setDelete_idem]
  · simp [Hooks.removeAfterRemove, setDelete_idem]
  · exact ⟨setDelete_not_mem _ _, setDelete_not_mem _ _, setDelete_not_mem _ _,
      setDelete_not_mem _ _, setDelete_not_mem _ _, setDelete_not_mem _ _,
      setDelete_not_mem _ _⟩
  · intro y hy
    have hmem : ∀ l : List Nat, y ∈ setDelete l x ↔ y ∈ l := by
      intro l
      rw [mem_setDelete]
      exact ⟨fun a => a.1, fun a => ⟨a, hy⟩⟩
    refine ⟨hmem _, ?_, ?_, hmem _, hmem _, hmem _, hmem _, hmem _, hmem _⟩
    · unfold Hooks.removeOnQueryBoth
      by_cases hx : x ∈ h.onQueryAll
      · simp only [if_pos hx]
        exact hmem _
      · simp only [if_neg hx]
    · unfold Hooks.removeOnQueryBoth
      by_cases hx : x ∈ h.onQueryAll
      · simp only [if_pos hx]
        exact hmem _
      · simp only [if_neg hx]
        exact hmem _
  · intro hreg
    have hh2 : ({ h with onQuery := setAdd h.onQuery x, onQueryAll := setAdd h.onQueryAll x } : Hooks) = h2 := by
      have := hreg
      simp only [Hooks.onQueryAdd, invariantChk, isFunctionVal, funcId, if_true,
        if_false, Bool.false_eq_true] at this
      exact (Prod.mk.injEq _ _ _ _).mp (Except.ok.inj this) |>.1
    rw [← hh2]
    refine ⟨setAdd_self_mem _ _, setAdd_self_mem _ _, ?_, ?_⟩
    · unfold Hooks.removeOnQueryBoth
      rw [if_pos (setAdd_self_mem h.onQueryAll x)]
      exact setDelete_not_mem _ _
    · unfold Hooks.removeOnQueryBoth
      rw [if_pos (setAdd_self_mem h.onQueryAll x)]
      exact setDelete_not_mem _ _

/-- Witness for C9 at a concrete registry: callback `2` registered for
both observer sets is removed from both by one invocation of its
capability, a second invocation changes nothing, and callback `5` stays
registered. -/
theorem removal_idempotent_exact_witness :
    (({ emptyHooks with onQuery := [2, 5], onQueryAll := [2] } : Hooks).removeOnQueryBoth 2).removeOnQueryBoth 2
      = ({ emptyHooks with onQuery := [2, 5], onQueryAll := [2] } : Hooks).removeOnQueryBoth 2
    ∧ (5 ∈ (({ emptyHooks with onQuery := [2, 5], onQueryAll := [2] } : Hooks).removeOnQueryBoth 2).onQuery ↔
        5 ∈ ({ emptyHooks with onQuery := [2, 5], onQueryAll := [2] } : Hooks).onQuery)
    ∧ 2 ∉ (({ emptyHooks with onQuery := [2], onQueryAll := [2] } : Hooks).removeOnQueryBoth 2).onQuery
    ∧ 2 ∉ (({ emptyHooks with onQuery := [2], onQueryAll := [2] } : Hooks).removeOnQueryBoth 2).onQueryAll :=
  ⟨(removal_idempotent_exact { emptyHooks with onQuery := [2, 5], onQueryAll := [2] }
      emptyHooks 2).1.2.1,
   (removal_idempotent_exact { emptyHooks with onQuery := [2, 5], onQueryAll := [2] }
      emptyHooks 2).2.2.1 5 (by decide) |>.2.1,
   ((removal_idempotent_exact emptyHooks
      { emptyHooks with onQuery := [2], onQueryAll := [2] } 2).2.2.2 rfl).2.2.1,
   ((removal_idempotent_exact emptyHooks
      { emptyHooks with onQuery := [2], onQueryAll := [2] } 2).2.2.2 rfl).2.2.2⟩

/-- Claim C10: every registration method throws a `TrilogyError` with
message `hook callbacks must be of type function` when its callback
argument is not a function; nothing is registered (no state is
produced, so the observer sets are those the caller already held). -/
theorem registration_requires_function :
    ∀ (h : Hooks) (fn : JsVal) (internal : Bool),
      isFunctionVal fn = false →
      h.onQueryAdd fn internal
          = .error ⟨"TrilogyError", "hook callbacks must be of type function"⟩
      ∧ h.beforeCreateAdd fn
          = .error ⟨"TrilogyError", "hook callbacks must be of type function"⟩
      ∧ h.afterCreateAdd fn
          = .error ⟨"TrilogyError", "hook callbacks must be of type function"⟩
      ∧ h.beforeUpdateAdd fn
          = .error ⟨"TrilogyError", "hook callbacks must be of type function"⟩
      ∧ h.afterUpdateAdd fn
          = .error ⟨"TrilogyError", "hook callbacks must be of type function"⟩
      ∧ h.beforeRemoveAdd fn
          = .error ⟨"TrilogyError", "hook callbacks must be of type function"⟩
      ∧ h.afterRemoveAdd fn
          = .error ⟨"TrilogyError", "hook callbacks must be of type function"⟩ := by
  intro h fn internal hfn
  refine ⟨?_, ?_, ?_, ?_, ?_, ?_, ?_⟩ <;>
    simp [Hooks.onQueryAdd, Hooks.beforeCreateAdd, Hooks.afterCreateAdd,
      Hooks.beforeUpdateAdd, Hooks.afterUpdateAdd, Hooks.beforeRemoveAdd,
      Hooks.afterRemoveAdd, invariantChk, hfn]

/-- Witness for C10: registering the number `1` as a callback fails on
every registration method. -/
theorem registration_requires_function_witness :
    emptyHooks.onQueryAdd (.num 1) false
        = .error ⟨"TrilogyError", "hook callbacks must be of type function"⟩
    ∧ emptyHooks.beforeCreateAdd (.num 1)
        = .error ⟨"TrilogyError", "hook callbacks must be of type function"⟩
    ∧ emptyHooks.afterCreateAdd (.num 1)
        = .error ⟨"TrilogyError", "hook callbacks must be of type function"⟩
    ∧ emptyHooks.beforeUpdateAdd (.num 1)
        = .error ⟨"TrilogyError", "hook callbacks must be of type function"⟩
    ∧ emptyHooks.afterUpdateAdd (.num 1)
        = .error ⟨"TrilogyError", "hook callbacks must be of type function"⟩
    ∧ emptyHooks.beforeRemoveAdd (.num 1)
        = .error ⟨"TrilogyError", "hook callbacks must be of type function"⟩
    ∧ emptyHooks.afterRemoveAdd (.num 1)
        = .error ⟨"TrilogyError", "hook callbacks must be of type function"⟩ :=
  registration_requires_function emptyHooks (.num 1) false rfl

end Trilogy
